import Mathlib

/-!
Verification of the audit-test-sampler sampling engine
(`src/utils/samplingLogic.ts`) against its specification.

Modelling conventions (shallow embedding of the TypeScript source):
* JS `number` is modelled as `Rat` (the engine only compares, adds and
  divides amounts; float rounding is not in scope of any claim).
* JS cell values (`string | number | null | undefined`) are the type `Cell`;
  `null` and `undefined` are merged into `Cell.null` (the source treats them
  identically at every use site).
* A flat-file record (JS object) is an ordered association list
  `Record := List (String × Cell)`; the order models JS own-property order.
* `generateId` (`Date.now` + `Math.random`) is nondeterministic in JS; it is
  modelled by an explicit id-source parameter `gen : Nat → String`, applied
  at the index of the generated id.  Number→string and Excel-serial-date
  formatting (`toLocaleDateString`, locale and timezone dependent) are
  likewise explicit function parameters (`numStr`, `dateFmt`).
* `lodash.orderBy` is a stable sort; it is modelled with
  `List.insertionSort`, which is stable.
* `lodash.groupBy` inserts keys in first-seen order into a plain JS object;
  `Object.entries` then enumerates own keys per the ECMAScript order:
  array-index keys (canonical numeric strings below 2^32 - 1) ascending
  first, then the remaining string keys in insertion order.  Both are
  modelled explicitly (`distinctKeys`, `jsOwnKeysOrder`).
-/

/-! ### ASCII string primitives (kernel-computable models of the JS string
operations used by the source: `toLowerCase`, `toUpperCase`, `trim`,
`includes`, `startsWith`, `join`) -/

/-- ASCII lower-casing of one character (models JS `toLowerCase` on the
ASCII fragment, which is all the source ever compares against). -/
def lowerCh (c : Char) : Char :=
  if 65 ≤ c.toNat ∧ c.toNat ≤ 90 then Char.ofNat (c.toNat + 32) else c

/-- ASCII upper-casing of one character. -/
def upperCh (c : Char) : Char :=
  if 97 ≤ c.toNat ∧ c.toNat ≤ 122 then Char.ofNat (c.toNat - 32) else c

/-- Model of JS `String.prototype.toLowerCase` (ASCII fragment). -/
def lowerStr (s : String) : String := ⟨s.data.map lowerCh⟩

/-- Model of JS `String.prototype.toUpperCase` (ASCII fragment). -/
def upperStr (s : String) : String := ⟨s.data.map upperCh⟩

/-- Whitespace test used by the `trim` model. -/
def isSpaceCh (c : Char) : Bool :=
  c.toNat = 32 || c.toNat = 9 || c.toNat = 10 || c.toNat = 13

/-- Model of JS `String.prototype.trim`. -/
def trimStr (s : String) : String :=
  ⟨((s.data.dropWhile isSpaceCh).reverse.dropWhile isSpaceCh).reverse⟩

/-- `listStartsWith pat l` : `l` begins with `pat`. -/
def listStartsWith : List Char → List Char → Bool
  | [], _ => true
  | _ :: _, [] => false
  | p :: ps, c :: cs => p == c && listStartsWith ps cs

/-- `listHasSub pat l` : `pat` occurs contiguously inside `l`. -/
def listHasSub (pat : List Char) : List Char → Bool
  | [] => pat.isEmpty
  | c :: cs => listStartsWith pat (c :: cs) || listHasSub pat cs

/-- Model of JS `String.prototype.includes`: `strHasSub s pat` is
`s.includes(pat)`. -/
def strHasSub (s pat : String) : Bool := listHasSub pat.data s.data

/-- Model of JS `String.prototype.startsWith`: `strStarts s pat` is
`s.startsWith(pat)`. -/
def strStarts (s pat : String) : Bool := listStartsWith pat.data s.data

/-! ### Raw cell values -/

/-- A raw spreadsheet cell value as the engine receives it
(`string | number | null/undefined`). -/
inductive Cell where
  | str (s : String)
  | num (q : Rat)
  | null
  deriving DecidableEq

/-- One row of a 2-D raw grid (`unknown[][]` rows). -/
abbrev Row : Type := List Cell

/-- A flat-file record: JS object modelled as an ordered association list
from header name to cell value. -/
abbrev Record : Type := List (String × Cell)

/-- Model of JS `String(c || "")`: falsy cells (null/undefined, `""`, `0`)
become the empty string; other numbers go through the number formatter. -/
def jsStr (numStr : Rat → String) : Cell → String
  | .str s => s
  | .num q => if q = 0 then "" else numStr q
  | .null => ""

/-- Model of JS `String(c)` without the `|| ""` guard (used only for the
"beginning balance" test on the raw date cell). -/
def jsStringRaw (numStr : Rat → String) : Cell → String
  | .str s => s
  | .num q => numStr q
  | .null => "null"

/-! ### Amount parsing (shared by `parseRawData` and `parseHierarchicalGL`):
`rawAmount.replace(/[$,]/g, "").replace(/\(([^)]+)\)/, "-$1").trim()`
followed by `parseFloat(cleaned) || 0`. -/

/-- Split a character list at its first `')'` (the `')'` is dropped);
`none` when there is no `')'`. -/
def parenSplit : List Char → Option (List Char × List Char)
  | [] => none
  | c :: cs =>
    if c = ')' then some ([], cs)
    else
      match parenSplit cs with
      | some (a, b) => some (c :: a, b)
      | none => none

/-- Model of one application of `replace(/\(([^)]+)\)/, "-$1")`: the
leftmost `( … )` pair with a non-empty `)`-free interior is rewritten to
`-…`; everything else is unchanged. -/
def parenNegAux : List Char → List Char
  | [] => []
  | c :: cs =>
    if c = '(' then
      match parenSplit cs with
      | some (inner, rest) =>
        if inner.isEmpty then c :: parenNegAux cs else '-' :: (inner ++ rest)
      | none => c :: parenNegAux cs
    else c :: parenNegAux cs

/-- The amount-string cleanup of the source: strip every `$` and `,`,
rewrite the first parenthesised group to a leading minus, then trim. -/
def cleanAmount (s : String) : String :=
  trimStr ⟨parenNegAux (s.data.filter (fun c => !(c == '$') && !(c == ',')))⟩

/-- Digit test (ASCII). -/
def isDigitCh (c : Char) : Bool := 48 ≤ c.toNat && c.toNat ≤ 57

/-- Take a maximal run of leading digits. -/
def parseDigits : List Char → List Char × List Char
  | [] => ([], [])
  | c :: cs =>
    if isDigitCh c then
      let p := parseDigits cs
      (c :: p.1, p.2)
    else ([], c :: cs)

/-- Numeric value of a digit run. -/
def digitsVal (ds : List Char) : Nat :=
  ds.foldl (fun n c => n * 10 + (c.toNat - 48)) 0

/-- Exponent part of a JS float literal (after the `e`); an `e` not followed
by at least one digit contributes exponent `0`, as in `parseFloat("1e")`. -/
def parseExp (r : List Char) : Int :=
  let p :=
    match r with
    | '-' :: rr => ((-1 : Int), rr)
    | '+' :: rr => ((1 : Int), rr)
    | rr => ((1 : Int), rr)
  let d := parseDigits p.2
  if d.1.isEmpty then 0 else p.1 * (digitsVal d.1 : Int)

/-- Model of JS `parseFloat`: longest numeric prefix after leading
whitespace; `none` models `NaN`.  (The `"Infinity"` literal, which no
claim touches, is not modelled.) -/
def jsParseFloat (s : String) : Option Rat :=
  let cs := s.data.dropWhile isSpaceCh
  let sg : Int × List Char :=
    match cs with
    | '-' :: r => (-1, r)
    | '+' :: r => (1, r)
    | r => (1, r)
  let ip := parseDigits sg.2
  let fp :=
    match ip.2 with
    | '.' :: r => parseDigits r
    | r => ([], r)
  if ip.1.isEmpty && fp.1.isEmpty then none
  else
    let m : Int := sg.1 * (digitsVal (ip.1 ++ fp.1) : Int)
    let ex : Int :=
      match fp.2 with
      | 'e' :: r => parseExp r
      | 'E' :: r => parseExp r
      | _ => 0
    some
      (if 0 ≤ ex then mkRat (m * ((10 ^ ex.toNat : Nat) : Int)) (10 ^ fp.1.length)
       else mkRat m (10 ^ fp.1.length * 10 ^ (-ex).toNat))

/-- Amount of a raw cell, exactly as both parsers compute it: numbers pass
through, strings are cleaned and parsed (`parseFloat(cleaned) || 0`, so a
failed parse gives `0`), anything else stays `0`. -/
def cellAmount : Cell → Rat
  | .num q => q
  | .str s => (jsParseFloat (cleanAmount s)).getD 0
  | .null => 0

/-! ### Data model (`src/types.ts`) -/

/-- A single general-ledger transaction (`Transaction` in `types.ts`). -/
structure Transaction where
  id : String
  date : String
  accountNumber : String
  accountName : String
  description : String
  amount : Rat
  reference : Option String := none
  vendor : Option String := none
  _rowIndex : Nat := 0
  deriving DecidableEq

/-- An account with its transactions and aggregates (`AccountGroup`). -/
structure AccountGroup where
  accountName : String
  accountNumber : String
  transactions : List Transaction
  totalBalance : Rat
  transactionCount : Nat
  deriving DecidableEq

/-- Why a sample was selected. -/
inductive SelectionReason where
  | OVER_SCOPE
  | HIGH_VALUE_KEY_ITEM
  deriving DecidableEq

/-- A selected sample: a transaction plus selection metadata
(`SelectedSample extends Transaction`). -/
structure SelectedSample extends Transaction where
  selectionReason : SelectionReason
  accountGroup : String
  groupTotalBalance : Rat
  deriving DecidableEq

/-- The sampling configuration (`SamplingConfig`).  `sampleSize` is the
integer per-account cap of the spec's data model. -/
structure SamplingConfig where
  tolerableMisstatement : Rat
  testingScope : Rat
  targetKeywords : List String
  sampleSize : Int
  deriving DecidableEq

/-- Summary statistics (`SamplingSummary`). -/
structure SamplingSummary where
  totalMaterialAccounts : Nat
  totalValueTested : Rat
  totalMaterialBalance : Rat
  coveragePercentage : Rat
  totalTransactionsReviewed : Nat
  overScopeCount : Nat
  highValueCount : Nat
  deriving DecidableEq

/-- The complete output bundle (`SamplingResults`). -/
structure SamplingResults where
  samples : List SelectedSample
  summary : SamplingSummary
  accountGroups : List AccountGroup
  filteredTransactionCount : Nat
  deriving DecidableEq

/-! ### `filterByKeywords` -/

/-- `filterByKeywords` from the source: blank-only keyword lists mean "no
filter"; otherwise keep transactions whose upper-cased account name
contains some upper-cased trimmed keyword. -/
def filterByKeywords (transactions : List Transaction) (keywords : List String) :
    List Transaction :=
  let validKeywords := keywords.filter (fun k => !(trimStr k == ""))
  if validKeywords.isEmpty then transactions
  else
    let upperKeywords := validKeywords.map (fun k => trimStr (upperStr k))
    transactions.filter (fun txn =>
      upperKeywords.any (fun kw => strHasSub (upperStr txn.accountName) kw))

/-! ### `groupByAccount` -/

/-- The distinct values of a list in first-seen order: the key-insertion
order produced by `lodash.groupBy`. -/
def distinctKeys : List String → List String
  | [] => []
  | k :: ks => k :: (distinctKeys ks).filter (fun x => !(x == k))

/-- A string that is a canonical array-index property key in JS (decimal
digits, no leading zero except `"0"`, value below `2^32 - 1`), together
with its numeric value. -/
def jsArrayIndexKey (s : String) : Option Nat :=
  match s.data with
  | [] => none
  | c :: cs =>
    if (c :: cs).all isDigitCh then
      if c = '0' ∧ cs ≠ [] then none
      else
        let n := digitsVal (c :: cs)
        if n < 4294967295 then some n else none
    else none

/-- Ascending order on array-index keys. -/
def keyAsc (a b : String) : Prop :=
  (jsArrayIndexKey a).getD 0 ≤ (jsArrayIndexKey b).getD 0

instance : DecidableRel keyAsc := fun a b =>
  inferInstanceAs (Decidable ((jsArrayIndexKey a).getD 0 ≤ (jsArrayIndexKey b).getD 0))

/-- ECMAScript own-property enumeration order (`Object.entries`):
array-index keys ascending by numeric value, then the remaining keys in
insertion order. -/
def jsOwnKeysOrder (keys : List String) : List String :=
  (keys.filter (fun k => (jsArrayIndexKey k).isSome)).insertionSort keyAsc ++
    keys.filter (fun k => !(jsArrayIndexKey k).isSome)

/-- Build one `AccountGroup` for a key, from the transactions carrying that
account name (in input order), as `groupByAccount`'s mapping step does. -/
def mkAccountGroup (transactions : List Transaction) (name : String) : AccountGroup :=
  let txns := transactions.filter (fun t => t.accountName == name)
  { accountName := name
    accountNumber := match txns.head? with | some t => t.accountNumber | none => ""
    transactions := txns
    totalBalance := (txns.map (fun t => |t.amount|)).sum
    transactionCount := txns.length }

/-- `groupByAccount` from the source: `lodash.groupBy` by `accountName`
followed by `Object.entries(...).map(...)`. -/
def groupByAccount (transactions : List Transaction) : List AccountGroup :=
  (jsOwnKeysOrder (distinctKeys (transactions.map (fun t => t.accountName)))).map
    (mkAccountGroup transactions)

/-! ### `identifyMaterialAccounts` -/

/-- `identifyMaterialAccounts`: keep groups with
`totalBalance > tolerableMisstatement`. -/
def identifyMaterialAccounts (accountGroups : List AccountGroup)
    (tolerableMisstatement : Rat) : List AccountGroup :=
  accountGroups.filter (fun group => tolerableMisstatement < group.totalBalance)

/-! ### `selectSamplesFromAccount` -/

/-- Descending order by absolute amount (the `_.orderBy` key). -/
def byAbsAmountDesc (a b : Transaction) : Prop := |b.amount| ≤ |a.amount|

instance : DecidableRel byAbsAmountDesc := fun a b =>
  inferInstanceAs (Decidable (|b.amount| ≤ |a.amount|))

/-- The account's transactions sorted by `|amount|` descending
(`_.orderBy(..., ['desc'])`, a stable sort). -/
def sortedTxns (accountGroup : AccountGroup) : List Transaction :=
  accountGroup.transactions.insertionSort byAbsAmountDesc

/-- Attach selection metadata to a transaction (the object spread in the
two selection loops). -/
def mkSample (reason : SelectionReason) (accountGroup : AccountGroup)
    (t : Transaction) : SelectedSample :=
  { toTransaction := t
    selectionReason := reason
    accountGroup := accountGroup.accountName
    groupTotalBalance := accountGroup.totalBalance }

/-- Priority-1 pool: sorted transactions whose `|amount|` exceeds the
testing scope. -/
def overScopeTxns (accountGroup : AccountGroup) (config : SamplingConfig) :
    List Transaction :=
  (sortedTxns accountGroup).filter (fun t => config.testingScope < |t.amount|)

/-- Priority-1 selections: over-scope transactions up to the cap.  The
source loop pushes until `selectedSamples.length >= sampleSize`, which is
`take sampleSize.toNat` (a non-positive cap yields nothing). -/
def phase1 (accountGroup : AccountGroup) (config : SamplingConfig) :
    List SelectedSample :=
  ((overScopeTxns accountGroup config).take config.sampleSize.toNat).map
    (mkSample .OVER_SCOPE accountGroup)

/-- The id set of the priority-1 selections (`new Set(selectedSamples.map(s => s.id))`). -/
def selectedIds (accountGroup : AccountGroup) (config : SamplingConfig) : List String :=
  (phase1 accountGroup config).map (fun s => s.toTransaction.id)

/-- Priority-2 pool: sorted transactions whose id was not selected in
priority 1. -/
def remainingTxns (accountGroup : AccountGroup) (config : SamplingConfig) :
    List Transaction :=
  (sortedTxns accountGroup).filter
    (fun t => !((selectedIds accountGroup config).contains t.id))

/-- Priority-2 selections: highest-value remaining transactions filling the
slots left after priority 1. -/
def phase2 (accountGroup : AccountGroup) (config : SamplingConfig) :
    List SelectedSample :=
  ((remainingTxns accountGroup config).take
      (config.sampleSize.toNat - (phase1 accountGroup config).length)).map
    (mkSample .HIGH_VALUE_KEY_ITEM accountGroup)

/-- `selectSamplesFromAccount` from the source: priority-1 loop, then, if
the cap is not yet reached, the priority-2 loop. -/
def selectSamplesFromAccount (accountGroup : AccountGroup) (config : SamplingConfig) :
    List SelectedSample :=
  if ((phase1 accountGroup config).length : Int) < config.sampleSize then
    phase1 accountGroup config ++ phase2 accountGroup config
  else
    phase1 accountGroup config

/-! ### `calculateSummary` and `performSampling` -/

/-- `calculateSummary` from the source. -/
def calculateSummary (samples : List SelectedSample)
    (materialAccounts : List AccountGroup) : SamplingSummary :=
  let totalValueTested := (samples.map (fun s => |s.amount|)).sum
  let totalMaterialBalance := (materialAccounts.map (fun g => g.totalBalance)).sum
  { totalMaterialAccounts := materialAccounts.length
    totalValueTested := totalValueTested
    totalMaterialBalance := totalMaterialBalance
    coveragePercentage :=
      if 0 < totalMaterialBalance then totalValueTested / totalMaterialBalance * 100
      else 0
    totalTransactionsReviewed := (materialAccounts.map (fun g => g.transactionCount)).sum
    overScopeCount := (samples.filter (fun s => s.selectionReason = .OVER_SCOPE)).length
    highValueCount :=
      (samples.filter (fun s => s.selectionReason = .HIGH_VALUE_KEY_ITEM)).length }

/-- The id-backfill step of `performSampling`
(`t.id || generateId()`; an empty id is falsy, so it is replaced).  The
nondeterministic `generateId` is modelled by the id source `gen` applied at
the transaction's position. -/
def withIdsGo (gen : Nat → String) : Nat → List Transaction → List Transaction
  | _, [] => []
  | i, t :: ts =>
    (if t.id = "" then { t with id := gen i } else t) :: withIdsGo gen (i + 1) ts

/-- `performSampling` from the source: backfill ids, filter by keywords,
group, classify materiality, select per material account, summarise. -/
def performSampling (gen : Nat → String) (rawTransactions : List Transaction)
    (config : SamplingConfig) : SamplingResults :=
  let transactionsWithIds := withIdsGo gen 0 rawTransactions
  let filteredTransactions := filterByKeywords transactionsWithIds config.targetKeywords
  let accountGroups := groupByAccount filteredTransactions
  let materialAccounts := identifyMaterialAccounts accountGroups config.tolerableMisstatement
  let allSamples := materialAccounts.flatMap (fun g => selectSamplesFromAccount g config)
  { samples := allSamples
    summary := calculateSummary allSamples materialAccounts
    accountGroups := materialAccounts
    filteredTransactionCount := filteredTransactions.length }

/-! ### `parseRawData` (the Column Mapper) -/

/-- Header-name variants for the transaction date column. -/
def columnPatternsDate : List String :=
  ["date", "transaction date", "trans date", "posting date", "gl date"]

/-- Header-name variants for the account number column. -/
def columnPatternsAccountNumber : List String :=
  ["account", "account number", "acct", "acct no", "account no", "gl account"]

/-- Header-name variants for the account name column. -/
def columnPatternsAccountName : List String :=
  ["account name", "account description", "acct name", "description",
   "account desc", "gl description"]

/-- Header-name variants for the amount column. -/
def columnPatternsAmount : List String :=
  ["amount", "debit", "credit", "value", "transaction amount", "trans amount"]

/-- Header-name variants for the description column. -/
def columnPatternsDescription : List String :=
  ["memo", "description", "transaction description", "line description",
   "detail", "narration"]

/-- Header-name variants for the reference column. -/
def columnPatternsReference : List String :=
  ["reference", "ref", "doc no", "document", "invoice", "check no", "voucher"]

/-- Header-name variants for the vendor column. -/
def columnPatternsVendor : List String :=
  ["vendor", "payee", "supplier", "customer", "party"]

/-- Lower-cased trimmed header, as `availableColumns` computes it. -/
def lowTrim (s : String) : String := trimStr (lowerStr s)

/-- `findColumn` from the source: for each pattern in priority order, find
the first available column equal to or containing the pattern, and map it
back to the original (case-sensitive) header name. -/
def findColumn (keys : List String) : List String → Option String
  | [] => none
  | p :: ps =>
    match (keys.map lowTrim).find? (fun col => col == p || strHasSub col p) with
    | some m => keys.find? (fun k => lowTrim k == m)
    | none => findColumn keys ps

/-- The resolved column mapping (`ColumnMapping` in `types.ts`). -/
structure ColumnMapping where
  date : Option String
  accountNumber : Option String
  accountName : Option String
  amount : Option String
  description : Option String
  reference : Option String
  vendor : Option String
  deriving DecidableEq

/-- Resolve every canonical field against the header set of the first
record. -/
def mkColumnMapping (keys : List String) : ColumnMapping :=
  { date := findColumn keys columnPatternsDate
    accountNumber := findColumn keys columnPatternsAccountNumber
    accountName := findColumn keys columnPatternsAccountName
    amount := findColumn keys columnPatternsAmount
    description := findColumn keys columnPatternsDescription
    reference := findColumn keys columnPatternsReference
    vendor := findColumn keys columnPatternsVendor }

/-- `row[key]` on a record: JS property lookup, `undefined` (here
`Cell.null`) when the key is absent. -/
def lookupCell (row : Record) (k : String) : Cell :=
  match List.find? (fun p => p.1 == k) row with
  | some p => p.2
  | none => Cell.null

/-- One output row of `parseRawData`'s final `data.map((row, index) => ...)`. -/
def buildTxn (gen : Nat → String) (numStr : Rat → String) (m : ColumnMapping)
    (i : Nat) (row : Record) : Transaction :=
  { id := gen i
    date := match m.date with | some k => jsStr numStr (lookupCell row k) | none => ""
    accountNumber :=
      match m.accountNumber with | some k => jsStr numStr (lookupCell row k) | none => ""
    accountName :=
      match m.accountName with | some k => jsStr numStr (lookupCell row k) | none => ""
    description :=
      match m.description with | some k => jsStr numStr (lookupCell row k) | none => ""
    amount := match m.amount with | some k => cellAmount (lookupCell row k) | none => 0
    reference := m.reference.map (fun k => jsStr numStr (lookupCell row k))
    vendor := m.vendor.map (fun k => jsStr numStr (lookupCell row k))
    _rowIndex := i + 1 }

/-- The indexed map over all records. -/
def buildRows (gen : Nat → String) (numStr : Rat → String) (m : ColumnMapping) :
    Nat → List Record → List Transaction
  | _, [] => []
  | i, r :: rs => buildTxn gen numStr m i r :: buildRows gen numStr m (i + 1) rs

/-- `parseRawData` from the source: auto-detect the column mapping from the
first record's headers, then normalise every record. -/
def parseRawData (gen : Nat → String) (numStr : Rat → String)
    (data : List Record) : List Transaction :=
  match data with
  | [] => []
  | r0 :: _ => buildRows gen numStr (mkColumnMapping (r0.map (fun p => p.1))) 0 data

/-- The JS-object view of a produced `Transaction`, with own keys in the
creation order of the object literal in `parseRawData` (this is what a
second mapping pass receives). -/
def txnToRecord (t : Transaction) : Record :=
  [("id", Cell.str t.id),
   ("date", Cell.str t.date),
   ("accountNumber", Cell.str t.accountNumber),
   ("accountName", Cell.str t.accountName),
   ("description", Cell.str t.description),
   ("amount", Cell.num t.amount),
   ("reference", match t.reference with | some s => Cell.str s | none => Cell.null),
   ("vendor", match t.vendor with | some s => Cell.str s | none => Cell.null),
   ("_rowIndex", Cell.num (t._rowIndex : Rat))]

/-! ### `detectHierarchicalGLFormat` and `parseHierarchicalGL` -/

/-- The concatenated lower-cased text of a row
(`row.map(c => String(c || "").toLowerCase()).join(" ")`). -/
def rowText (numStr : Rat → String) (row : Row) : String :=
  String.intercalate " " (row.map (fun c => lowerStr (jsStr numStr c)))

/-- The header-row test: the row text contains `"date"` and (`"amount"` or
`"balance"`). -/
def headerMatchRow (numStr : Rat → String) (row : Row) : Bool :=
  strHasSub (rowText numStr row) "date" &&
    (strHasSub (rowText numStr row) "amount" || strHasSub (rowText numStr row) "balance")

/-- First cell of a row (`row[0]`; `undefined` when the row is empty). -/
def firstCell (row : Row) : Cell := row.getD 0 Cell.null

/-- `detectHierarchicalGLFormat` from the source: needs at least 10 rows, a
header row among the first 10, and, within a 10-row lookahead after it, a
non-"total" string first cell immediately followed by a row whose first
cell is null/undefined/empty. -/
def detectHierarchicalGLFormat (numStr : Rat → String) (rawData : List Row) : Bool :=
  if rawData.length < 10 then false
  else
    (List.range (min 10 rawData.length)).any (fun i =>
      headerMatchRow numStr (rawData.getD i []) &&
        (List.range' (i + 1) (min (i + 10) rawData.length - (i + 1))).any (fun j =>
          (match firstCell (rawData.getD j []) with
           | Cell.str s => !(s == "") && !(strHasSub (lowerStr s) "total")
           | _ => false) &&
            (match rawData.get? (j + 1) with
             | some nextRow =>
               match firstCell nextRow with
               | Cell.null => true
               | Cell.str s2 => s2 == ""
               | Cell.num _ => false
             | none => false)))

/-- The header-row scan shared with the detector: index and lower-cased
trimmed header names of the first qualifying row among the first 10. -/
def findHeaderRow (numStr : Rat → String) (rawData : List Row) :
    Option (Nat × List String) :=
  (List.range (min 10 rawData.length)).findSome? (fun i =>
    if headerMatchRow numStr (rawData.getD i []) then
      some (i, (rawData.getD i []).map (fun c => trimStr (lowerStr (jsStr numStr c))))
    else none)

/-- Resolved column indices of the hierarchical parser. -/
structure HGLCols where
  dateIdx : Option Nat
  amountIdx : Option Nat
  memoIdx : Option Nat
  numIdx : Option Nat
  nameIdx : Option Nat
  deriving DecidableEq

/-- Column-index resolution of the hierarchical parser (`findIndex`
returning `-1` is modelled by `none`). -/
def mkHGLCols (headers : List String) : HGLCols :=
  { dateIdx := headers.findIdx? (fun h => h == "date")
    amountIdx := headers.findIdx? (fun h => h == "amount")
    memoIdx := headers.findIdx? (fun h => strHasSub h "memo" || strHasSub h "description")
    numIdx := headers.findIdx? (fun h => h == "num")
    nameIdx := headers.findIdx? (fun h => h == "name") }

/-- Handling of a non-banner row of the hierarchical parser: `none` (skip)
when the amount cell is absent or empty, when the date cell mentions
"beginning balance", or when the parsed amount is zero; otherwise the
transaction emitted under the current account context. -/
def hglRowTxn (numStr dateFmt : Rat → String) (gen : Nat → String) (cols : HGLCols)
    (row : Row) (i : Nat) (cur : String) (k : Nat) : Option Transaction :=
  let rawAmount :=
    match cols.amountIdx with | some a => row.getD a Cell.null | none => Cell.null
  if rawAmount = Cell.null ∨ rawAmount = Cell.str "" then none
  else
    let dateVal :=
      match cols.dateIdx with | some d => row.getD d Cell.null | none => Cell.str ""
    if strHasSub (lowerStr (jsStringRaw numStr dateVal)) "beginning balance" then none
    else if cellAmount rawAmount = 0 then none
    else
      some
        { id := gen k
          date := match dateVal with | Cell.num q => dateFmt q | c => jsStr numStr c
          accountNumber := ""
          accountName := cur
          description :=
            match cols.memoIdx with
            | some m2 => jsStr numStr (row.getD m2 Cell.null)
            | none => ""
          amount := cellAmount rawAmount
          reference := cols.numIdx.map (fun n2 => jsStr numStr (row.getD n2 Cell.null))
          vendor := cols.nameIdx.map (fun n2 => jsStr numStr (row.getD n2 Cell.null))
          _rowIndex := i + 1 }

/-- The data-row loop of `parseHierarchicalGL`.  `i` is the absolute row
index, `cur` the current account-name context, `k` the number of
transactions emitted so far (the index fed to the id source).  A non-empty
non-whitespace string in the first column is a banner row: unless it starts
with "total" it updates the context, and it is skipped either way.  Every
other row goes through `hglRowTxn`. -/
def hglGo (numStr dateFmt : Rat → String) (gen : Nat → String) (cols : HGLCols) :
    List Row → Nat → String → Nat → List Transaction
  | [], _, _, _ => []
  | row :: rest, i, cur, k =>
    match firstCell row with
    | Cell.str s =>
      if trimStr s == "" then
        match hglRowTxn numStr dateFmt gen cols row i cur k with
        | some t => t :: hglGo numStr dateFmt gen cols rest (i + 1) cur (k + 1)
        | none => hglGo numStr dateFmt gen cols rest (i + 1) cur k
      else
        hglGo numStr dateFmt gen cols rest (i + 1)
          (if strStarts (lowerStr (trimStr s)) "total" then cur else trimStr s) k
    | _ =>
      match hglRowTxn numStr dateFmt gen cols row i cur k with
      | some t => t :: hglGo numStr dateFmt gen cols rest (i + 1) cur (k + 1)
      | none => hglGo numStr dateFmt gen cols rest (i + 1) cur k

/-- The hierarchical-GL warning message of the source. -/
def hglWarning : String := "Could not find header row in hierarchical GL"

/-- `parseHierarchicalGL`, with the `console.warn` side channel made
explicit: the second component collects emitted warnings. -/
def parseHierarchicalGLAux (numStr dateFmt : Rat → String) (gen : Nat → String)
    (rawData : List Row) : List Transaction × List String :=
  match findHeaderRow numStr rawData with
  | none => ([], [hglWarning])
  | some hr =>
    (hglGo numStr dateFmt gen (mkHGLCols hr.2) (rawData.drop (hr.1 + 1)) (hr.1 + 1) "" 0,
     [])

/-- `parseHierarchicalGL`'s return value (the transaction list). -/
def parseHierarchicalGL (numStr dateFmt : Rat → String) (gen : Nat → String)
    (rawData : List Row) : List Transaction :=
  (parseHierarchicalGLAux numStr dateFmt gen rawData).1

/-! ### Claim C3: materiality is a strict threshold -/

/-- C3.  `identifyMaterialAccounts` retains a group iff its `totalBalance`
is strictly greater than `tolerableMisstatement`: a group whose balance
exactly equals the threshold is excluded, and one strictly above it (and
present in the input) is retained. -/
theorem identifyMaterialAccounts_strict (accountGroups : List AccountGroup)
    (tm : Rat) (g : AccountGroup) :
    (g ∈ identifyMaterialAccounts accountGroups tm ↔
      g ∈ accountGroups ∧ tm < g.totalBalance) ∧
    (g.totalBalance = tm → g ∉ identifyMaterialAccounts accountGroups tm) ∧
    (g ∈ accountGroups → tm < g.totalBalance →
      g ∈ identifyMaterialAccounts accountGroups tm) := by
  refine ⟨?_, ?_, ?_⟩
  · simp [identifyMaterialAccounts, List.mem_filter]
  · intro heq hmem
    rw [identifyMaterialAccounts, List.mem_filter] at hmem
    rcases hmem with ⟨-, hlt⟩
    rw [decide_eq_true_eq] at hlt
    rw [heq] at hlt
    exact lt_irrefl tm hlt
  · intro hmem hlt
    rw [identifyMaterialAccounts, List.mem_filter]
    exact ⟨hmem, by simpa using hlt⟩

/-- An account group whose balance is exactly the threshold. -/
def groupAtThreshold : AccountGroup :=
  { accountName := "A", accountNumber := "", transactions := [],
    totalBalance := 15000, transactionCount := 0 }

/-- An account group strictly above the threshold. -/
def groupAboveThreshold : AccountGroup :=
  { accountName := "B", accountNumber := "", transactions := [],
    totalBalance := 15001, transactionCount := 0 }

/-- Witness for C3 at a concrete input: the exactly-at-threshold group is
dropped, the strictly-above one retained. -/
theorem identifyMaterialAccounts_strict_witness :
    groupAtThreshold ∉
        identifyMaterialAccounts [groupAtThreshold, groupAboveThreshold] 15000 ∧
    groupAboveThreshold ∈
        identifyMaterialAccounts [groupAtThreshold, groupAboveThreshold] 15000 :=
  ⟨(identifyMaterialAccounts_strict [groupAtThreshold, groupAboveThreshold] 15000
        groupAtThreshold).2.1 rfl,
   (identifyMaterialAccounts_strict [groupAtThreshold, groupAboveThreshold] 15000
        groupAboveThreshold).2.2 (by decide) (by decide)⟩

/-! ### Claim C10: grids shorter than 10 rows are never hierarchical -/

/-- C10.  `detectHierarchicalGLFormat` returns `false` for every grid with
fewer than 10 rows, regardless of content. -/
theorem detectHierarchicalGLFormat_short (numStr : Rat → String)
    (rawData : List Row) (h : rawData.length < 10) :
    detectHierarchicalGLFormat numStr rawData = false := by
  rw [detectHierarchicalGLFormat, if_pos h]

/-- A 9-row grid that contains a qualifying header row ("Date … Amount"),
an account-banner row, and a blank-first-column transaction row. -/
def shortHierGrid : List Row :=
  [[Cell.str "Date", Cell.str "Amount"],
   [Cell.str "Utilities"],
   [Cell.null, Cell.num 300],
   [Cell.null, Cell.num 50],
   [Cell.str "Total Utilities"],
   [Cell.str "Rent"],
   [Cell.null, Cell.num 900],
   [Cell.null, Cell.num 100],
   [Cell.str "Total Rent"]]

/-- Witness for C10: the 9-row grid qualifies on content (header row plus a
banner row immediately followed by a blank-first-column row) yet is
classified as flat. -/
theorem detectHierarchicalGLFormat_short_witness :
    shortHierGrid.length < 10 ∧
    headerMatchRow (fun _ => "") (shortHierGrid.getD 0 []) = true ∧
    detectHierarchicalGLFormat (fun _ => "") shortHierGrid = false :=
  ⟨by decide, by decide,
   detectHierarchicalGLFormat_short (fun _ => "") shortHierGrid (by decide)⟩

/-! ### Claim C9: missing header row in hierarchical parsing -/

/-- C9.  If no row among the first 10 rows matches the header heuristic,
`parseHierarchicalGL` returns an empty transaction list together with the
caller-visible warning (and, being a total function, never throws). -/
theorem parseHierarchicalGL_noHeader (numStr dateFmt : Rat → String)
    (gen : Nat → String) (rawData : List Row)
    (h : ∀ row ∈ rawData.take 10, headerMatchRow numStr row = false) :
    parseHierarchicalGLAux numStr dateFmt gen rawData = ([], [hglWarning]) := by
  have hnone : findHeaderRow numStr rawData = none := by
    rw [findHeaderRow, List.findSome?_eq_none_iff]
    intro i hi
    rw [List.mem_range] at hi
    have hilen : i < rawData.length := lt_of_lt_of_le hi (min_le_right _ _)
    have hitake : i < (rawData.take 10).length := by
      rw [List.length_take]
      omega
    have hmem2 : rawData.get ⟨i, hilen⟩ ∈ rawData.take 10 := by
      have hge := List.getElem_mem hitake
      simpa [List.getElem_take] using hge
    have hfalse : headerMatchRow numStr (rawData.getD i []) = false := by
      have hgd : rawData.getD i [] = rawData.get ⟨i, hilen⟩ := by
        rw [List.getD_eq_getElem?_getD, List.getElem?_eq_getElem hilen]
        rfl
      rw [hgd]
      exact h _ hmem2
    have hnot : ¬ (headerMatchRow numStr (rawData.getD i []) = true) := by
      rw [hfalse]
      simp
    rw [if_neg hnot]
  rw [parseHierarchicalGLAux, hnone]

/-- A grid with no qualifying header row anywhere. -/
def headerlessGrid : List Row :=
  [[Cell.str "hello", Cell.num 3], [Cell.str "world"], [Cell.null]]

/-- Witness for C9 at a concrete grid. -/
theorem parseHierarchicalGL_noHeader_witness :
    (∀ row ∈ headerlessGrid.take 10, headerMatchRow (fun _ => "") row = false) ∧
    parseHierarchicalGLAux (fun _ => "") (fun _ => "") (fun _ => "id") headerlessGrid =
      ([], [hglWarning]) :=
  ⟨by decide,
   parseHierarchicalGL_noHeader (fun _ => "") (fun _ => "") (fun _ => "id")
     headerlessGrid (by decide)⟩

/-! ### Claim C7: keyword filtering -/

/-- C7.  `filterByKeywords` is the identity when every keyword is blank,
and otherwise returns exactly the subsequence of transactions whose
upper-cased account name contains some upper-cased trimmed non-blank
keyword; in both cases the result is a sublist of the input (order and
identity preserved). -/
theorem filterByKeywords_spec (ts : List Transaction) (ks : List String) :
    (filterByKeywords ts ks).Sublist ts ∧
    filterByKeywords ts ks =
      (if ∀ k ∈ ks, trimStr k = "" then ts
       else
         ts.filter (fun t =>
           ks.any (fun k =>
             !(trimStr k == "") &&
               strHasSub (upperStr t.accountName) (trimStr (upperStr k))))) := by
  have hpred :
      (fun t : Transaction =>
          ((ks.filter (fun k => !(trimStr k == ""))).map
              (fun k => trimStr (upperStr k))).any
            (fun kw => strHasSub (upperStr t.accountName) kw)) =
        fun t : Transaction =>
          ks.any (fun k =>
            !(trimStr k == "") &&
              strHasSub (upperStr t.accountName) (trimStr (upperStr k))) := by
    funext t
    rw [List.any_map, List.any_filter]
    rfl
  by_cases hempty : (ks.filter (fun k => !(trimStr k == ""))).isEmpty = true
  · have hall : ∀ k ∈ ks, trimStr k = "" := by
      rw [List.isEmpty_iff, List.filter_eq_nil_iff] at hempty
      intro k hk
      have := hempty k hk
      simpa using this
    constructor
    · rw [filterByKeywords, if_pos hempty]
    · rw [filterByKeywords, if_pos hempty, if_pos hall]
  · have hnall : ¬ ∀ k ∈ ks, trimStr k = "" := by
      intro hall
      apply hempty
      rw [List.isEmpty_iff, List.filter_eq_nil_iff]
      intro k hk
      simp [hall k hk]
    constructor
    · rw [filterByKeywords, if_neg hempty]
      exact List.filter_sublist ts
    · rw [filterByKeywords, if_neg hempty, if_neg hnall]
      simp only [hpred]

/-! ### Claims C2 and C5: account aggregation -/

/-- Membership in the first-seen distinct keys is membership in the list. -/
theorem mem_distinctKeys {a : String} : ∀ {l : List String}, a ∈ distinctKeys l ↔ a ∈ l := by
  intro l
  induction l with
  | nil => simp [distinctKeys]
  | cons k ks ih =>
    by_cases hak : a = k
    · subst hak
      simp [distinctKeys]
    · simp [distinctKeys, List.mem_filter, ih, hak]

/-- The first-seen distinct keys are duplicate-free. -/
theorem distinctKeys_nodup : ∀ (l : List String), (distinctKeys l).Nodup := by
  intro l
  induction l with
  | nil => simp [distinctKeys]
  | cons k ks ih =>
    rw [distinctKeys, List.nodup_cons]
    constructor
    · intro hmem
      rw [List.mem_filter] at hmem
      simp at hmem
    · exact ih.filter _

/-- The ECMAScript own-key order is a permutation of the key list. -/
theorem jsOwnKeysOrder_perm (keys : List String) : (jsOwnKeysOrder keys).Perm keys := by
  rw [jsOwnKeysOrder]
  exact ((List.perm_insertionSort keyAsc _).append_right _).trans
    (List.filter_append_perm _ keys)

/-- The `accountName` of a built group is its key. -/
theorem mkAccountGroup_accountName (ts : List Transaction) (name : String) :
    (mkAccountGroup ts name).accountName = name := rfl

/-- The transactions of a built group are the input transactions with that
account name, in input order. -/
theorem mkAccountGroup_transactions (ts : List Transaction) (name : String) :
    (mkAccountGroup ts name).transactions = ts.filter (fun t => t.accountName == name) := rfl

/-- `totalBalance` of a built group is the sum of `|amount|` over its
transactions. -/
theorem mkAccountGroup_totalBalance (ts : List Transaction) (name : String) :
    (mkAccountGroup ts name).totalBalance =
      (((mkAccountGroup ts name).transactions).map (fun t => |t.amount|)).sum := rfl

/-- `transactionCount` of a built group is its number of transactions. -/
theorem mkAccountGroup_transactionCount (ts : List Transaction) (name : String) :
    (mkAccountGroup ts name).transactionCount =
      ((mkAccountGroup ts name).transactions).length := rfl

/-- The group names produced by `groupByAccount`, in order. -/
theorem groupByAccount_names (ts : List Transaction) :
    (groupByAccount ts).map (fun g => g.accountName) =
      jsOwnKeysOrder (distinctKeys (ts.map (fun t => t.accountName))) := by
  rw [groupByAccount, List.map_map]
  have : (fun g : AccountGroup => g.accountName) ∘ mkAccountGroup ts = id := by
    funext name
    rfl
  rw [this, List.map_id]

/-- C2.  `groupByAccount` partitions its input exactly: each group's
`totalBalance` is the sum of `|amount|` over its transactions, its
`transactionCount` is the number of its transactions, its transaction list
is exactly the input transactions bearing its (case-sensitively equal)
account name in input order, group names are pairwise distinct, and every
input transaction lies in exactly one group — the one carrying its account
name. -/
theorem groupByAccount_partition (ts : List Transaction) :
    (∀ g ∈ groupByAccount ts,
      g.totalBalance = (g.transactions.map (fun t => |t.amount|)).sum ∧
      g.transactionCount = g.transactions.length ∧
      g.transactions = ts.filter (fun t => t.accountName == g.accountName)) ∧
    ((groupByAccount ts).map (fun g => g.accountName)).Nodup ∧
    (∀ t ∈ ts, ∃ g ∈ groupByAccount ts, g.accountName = t.accountName ∧
      t ∈ g.transactions) ∧
    (∀ g1 ∈ groupByAccount ts, ∀ g2 ∈ groupByAccount ts, ∀ t : Transaction,
      t ∈ g1.transactions → t ∈ g2.transactions → g1 = g2) := by
  refine ⟨?_, ?_, ?_, ?_⟩
  · intro g hg
    rw [groupByAccount, List.mem_map] at hg
    obtain ⟨name, -, rfl⟩ := hg
    exact ⟨mkAccountGroup_totalBalance ts name, mkAccountGroup_transactionCount ts name,
      mkAccountGroup_transactions ts name⟩
  · rw [groupByAccount_names]
    exact ((jsOwnKeysOrder_perm _).nodup_iff).mpr (distinctKeys_nodup _)
  · intro t ht
    have hname : t.accountName ∈ jsOwnKeysOrder (distinctKeys (ts.map (fun x => x.accountName))) := by
      rw [(jsOwnKeysOrder_perm _).mem_iff, mem_distinctKeys]
      exact List.mem_map_of_mem _ ht
    refine ⟨mkAccountGroup ts t.accountName, ?_, rfl, ?_⟩
    · rw [groupByAccount]
      exact List.mem_map_of_mem _ hname
    · rw [mkAccountGroup_transactions, List.mem_filter]
      exact ⟨ht, by simp⟩
  · intro g1 hg1 g2 hg2 t ht1 ht2
    rw [groupByAccount, List.mem_map] at hg1 hg2
    obtain ⟨n1, -, rfl⟩ := hg1
    obtain ⟨n2, -, rfl⟩ := hg2
    rw [mkAccountGroup_transactions, List.mem_filter] at ht1 ht2
    have e1 : t.accountName = n1 := by simpa using ht1.2
    have e2 : t.accountName = n2 := by simpa using ht2.2
    rw [← e1, ← e2]

/-- A concrete transaction for the C2 witness. -/
def c2t0 : Transaction :=
  { id := "a", date := "", accountNumber := "10", accountName := "CITY PARK MAINT",
    description := "", amount := 20000 }

/-- Concrete transactions for the C2 witness. -/
def c2Txns : List Transaction :=
  [c2t0,
   { id := "b", date := "", accountNumber := "20", accountName := "ADMIN",
     description := "", amount := -12000 },
   { id := "c", date := "", accountNumber := "10", accountName := "CITY PARK MAINT",
     description := "", amount := -5000 }]

/-- Witness for C2 at a concrete input: the first transaction lies in a
group named after its account, and the group names are duplicate-free. -/
theorem groupByAccount_partition_witness :
    (∃ g ∈ groupByAccount c2Txns, g.accountName = c2t0.accountName ∧
      c2t0 ∈ g.transactions) ∧
    ((groupByAccount c2Txns).map (fun g => g.accountName)).Nodup :=
  ⟨(groupByAccount_partition c2Txns).2.2.1 c2t0 (by decide),
   (groupByAccount_partition c2Txns).2.1⟩

/-- Transactions whose account names are "Apple" then "1": the string `"1"`
is a canonical array-index key, so `Object.entries` lists it first. -/
def c5Txns : List Transaction :=
  [{ id := "a", date := "", accountNumber := "", accountName := "Apple",
     description := "", amount := 1 },
   { id := "b", date := "", accountNumber := "", accountName := "1",
     description := "", amount := 2 }]

/-- Counterexample to C5 as stated: on `c5Txns` the group order is
`["1", "Apple"]`, not the first-seen order `["Apple", "1"]`. -/
theorem groupByAccount_firstSeen_counterexample :
    ¬ ((groupByAccount c5Txns).map (fun g => g.accountName) =
        distinctKeys (c5Txns.map (fun t => t.accountName))) := by
  decide

/-- C5 (amended).  The group sequence lists the distinct account names in
ECMAScript own-key order: names that are canonical array-index strings
first, ascending by numeric value, then the remaining names in first-seen
order; in particular, when no account name is such a numeric string the
order is exactly the first-seen order of distinct names. -/
theorem groupByAccount_order (ts : List Transaction) :
    (groupByAccount ts).map (fun g => g.accountName) =
      ((distinctKeys (ts.map (fun t => t.accountName))).filter
          (fun k => (jsArrayIndexKey k).isSome)).insertionSort keyAsc ++
        (distinctKeys (ts.map (fun t => t.accountName))).filter
          (fun k => !(jsArrayIndexKey k).isSome) ∧
    ((∀ t ∈ ts, jsArrayIndexKey t.accountName = none) →
      (groupByAccount ts).map (fun g => g.accountName) =
        distinctKeys (ts.map (fun t => t.accountName))) := by
  constructor
  · rw [groupByAccount_names, jsOwnKeysOrder]
  · intro hnone
    have hkey : ∀ k ∈ distinctKeys (ts.map (fun t => t.accountName)),
        jsArrayIndexKey k = none := by
      intro k hk
      rw [mem_distinctKeys, List.mem_map] at hk
      obtain ⟨t, ht, rfl⟩ := hk
      exact hnone t ht
    rw [groupByAccount_names, jsOwnKeysOrder]
    have h1 : (distinctKeys (ts.map (fun t => t.accountName))).filter
        (fun k => (jsArrayIndexKey k).isSome) = [] := by
      rw [List.filter_eq_nil_iff]
      intro k hk
      simp [hkey k hk]
    have h2 : (distinctKeys (ts.map (fun t => t.accountName))).filter
        (fun k => !(jsArrayIndexKey k).isSome) =
        distinctKeys (ts.map (fun t => t.accountName)) := by
      rw [List.filter_eq_self]
      intro k hk
      simp [hkey k hk]
    rw [h1, h2]
    rfl

/-- Transactions with no array-index-like account names, for the C5
witness. -/
def c5WitnessTxns : List Transaction :=
  [{ id := "a", date := "", accountNumber := "", accountName := "Parks",
     description := "", amount := 3 },
   { id := "b", date := "", accountNumber := "", accountName := "Admin",
     description := "", amount := 4 },
   { id := "c", date := "", accountNumber := "", accountName := "Parks",
     description := "", amount := 5 }]

/-- Witness for the amended C5: with no numeric account names the group
order is the first-seen order of distinct names. -/
theorem groupByAccount_order_witness :
    (∀ t ∈ c5WitnessTxns, jsArrayIndexKey t.accountName = none) ∧
    (groupByAccount c5WitnessTxns).map (fun g => g.accountName) =
      distinctKeys (c5WitnessTxns.map (fun t => t.accountName)) :=
  ⟨by decide, (groupByAccount_order c5WitnessTxns).2 (by decide)⟩

/-! ### Claim C1: per-account sample selection -/

/-- The underlying transaction of a built sample. -/
theorem mkSample_toTransaction (r : SelectionReason) (g : AccountGroup)
    (t : Transaction) : (mkSample r g t).toTransaction = t := rfl

/-- The sorted pool is a permutation of the account's transactions. -/
theorem sortedTxns_perm (g : AccountGroup) : (sortedTxns g).Perm g.transactions := by
  rw [sortedTxns]
  exact List.perm_insertionSort byAbsAmountDesc g.transactions

/-- Distinct transaction ids survive the sort. -/
theorem sortedIds_nodup (g : AccountGroup)
    (h : (g.transactions.map (fun t => t.id)).Nodup) :
    ((sortedTxns g).map (fun t => t.id)).Nodup :=
  (((sortedTxns_perm g).map (fun t => t.id)).nodup_iff).mpr h

/-- The priority-1 id list, re-expressed over the underlying transactions. -/
theorem selectedIds_eq (g : AccountGroup) (c : SamplingConfig) :
    selectedIds g c =
      ((overScopeTxns g c).take c.sampleSize.toNat).map (fun t => t.id) := by
  rw [selectedIds, phase1, List.map_map]
  rfl

/-- C1.  For an account group whose transactions carry distinct ids,
`selectSamplesFromAccount` returns at most `sampleSize` samples (none when
`sampleSize` is non-positive); every OVER_SCOPE sample has
`|amount| > testingScope`, every HIGH_VALUE_KEY_ITEM sample has
`|amount| ≤ testingScope`, and no transaction is selected twice (the
selected ids are pairwise distinct). -/
theorem selectSamplesFromAccount_spec (g : AccountGroup) (c : SamplingConfig)
    (h : (g.transactions.map (fun t => t.id)).Nodup) :
    (selectSamplesFromAccount g c).length ≤ c.sampleSize.toNat ∧
    (c.sampleSize ≤ 0 → selectSamplesFromAccount g c = []) ∧
    (∀ s ∈ selectSamplesFromAccount g c,
      (s.selectionReason = SelectionReason.OVER_SCOPE →
        c.testingScope < |s.toTransaction.amount|) ∧
      (s.selectionReason = SelectionReason.HIGH_VALUE_KEY_ITEM →
        |s.toTransaction.amount| ≤ c.testingScope)) ∧
    ((selectSamplesFromAccount g c).map (fun s => s.toTransaction.id)).Nodup := by
  have hp1len : (phase1 g c).length =
      c.sampleSize.toNat ⊓ (overScopeTxns g c).length := by
    rw [phase1, List.length_map, List.length_take]
  have hp1n : (phase1 g c).length ≤ c.sampleSize.toNat := hp1len ▸ inf_le_left
  have hfull : ((phase1 g c).length : Int) < c.sampleSize →
      (overScopeTxns g c).take c.sampleSize.toNat = overScopeTxns g c := by
    intro hcond
    have hpos : (0 : Int) < c.sampleSize :=
      lt_of_le_of_lt (Int.ofNat_nonneg _) hcond
    have hn : (c.sampleSize.toNat : Int) = c.sampleSize :=
      Int.toNat_of_nonneg (le_of_lt hpos)
    have hlt : (phase1 g c).length < c.sampleSize.toNat := by
      have h2 := hcond
      rw [← hn] at h2
      exact_mod_cast h2
    rw [hp1len] at hlt
    have holen : (overScopeTxns g c).length ≤ c.sampleSize.toNat := by
      by_contra hgt
      push_neg at hgt
      rw [inf_eq_left.mpr (le_of_lt hgt)] at hlt
      exact lt_irrefl _ hlt
    exact List.take_of_length_le holen
  have hmemP1 : ∀ s ∈ phase1 g c,
      s.selectionReason = SelectionReason.OVER_SCOPE ∧
      c.testingScope < |s.toTransaction.amount| := by
    intro s hs
    rw [phase1, List.mem_map] at hs
    obtain ⟨t, ht, rfl⟩ := hs
    have ht2 : t ∈ overScopeTxns g c := (List.take_sublist _ _).subset ht
    rw [overScopeTxns, List.mem_filter] at ht2
    refine ⟨rfl, ?_⟩
    have h3 := ht2.2
    rw [decide_eq_true_eq] at h3
    exact h3
  have hmemP2 : ∀ s ∈ phase2 g c,
      s.selectionReason = SelectionReason.HIGH_VALUE_KEY_ITEM ∧
      s.toTransaction ∈ sortedTxns g ∧
      ((selectedIds g c).contains s.toTransaction.id) = false := by
    intro s hs
    rw [phase2, List.mem_map] at hs
    obtain ⟨t, ht, rfl⟩ := hs
    have ht2 : t ∈ remainingTxns g c := (List.take_sublist _ _).subset ht
    rw [remainingTxns, List.mem_filter] at ht2
    exact ⟨rfl, ht2.1, by simpa using ht2.2⟩
  have hP2le : ((phase1 g c).length : Int) < c.sampleSize →
      ∀ s ∈ phase2 g c, |s.toTransaction.amount| ≤ c.testingScope := by
    intro hcond s hs
    obtain ⟨-, hsort, hncont⟩ := hmemP2 s hs
    by_contra hgt
    push_neg at hgt
    have hover : s.toTransaction ∈ overScopeTxns g c := by
      rw [overScopeTxns, List.mem_filter]
      exact ⟨hsort, by simpa using hgt⟩
    have hin : s.toTransaction.id ∈ selectedIds g c := by
      rw [selectedIds_eq, hfull hcond]
      exact List.mem_map_of_mem _ hover
    have hnotmem : s.toTransaction.id ∉ selectedIds g c := by simpa using hncont
    exact hnotmem hin
  have hnodupP1 : ((phase1 g c).map (fun s => s.toTransaction.id)).Nodup := by
    rw [phase1, List.map_map]
    exact List.Nodup.sublist
      (List.Sublist.map _ ((List.take_sublist _ _).trans (List.filter_sublist _)))
      (sortedIds_nodup g h)
  have hnodupP2 : ((phase2 g c).map (fun s => s.toTransaction.id)).Nodup := by
    rw [phase2, List.map_map]
    exact List.Nodup.sublist
      (List.Sublist.map _ ((List.take_sublist _ _).trans (List.filter_sublist _)))
      (sortedIds_nodup g h)
  have hdisj : ((phase1 g c).map (fun s => s.toTransaction.id)).Disjoint
      ((phase2 g c).map (fun s => s.toTransaction.id)) := by
    intro a ha1 ha2
    rw [List.mem_map] at ha2
    obtain ⟨s, hs, rfl⟩ := ha2
    have hnm : s.toTransaction.id ∉ selectedIds g c := by
      simpa using (hmemP2 s hs).2.2
    exact hnm ha1
  by_cases hcond : ((phase1 g c).length : Int) < c.sampleSize
  · rw [selectSamplesFromAccount, if_pos hcond]
    have hp2len : (phase2 g c).length ≤ c.sampleSize.toNat - (phase1 g c).length := by
      rw [phase2, List.length_map, List.length_take]
      exact inf_le_left
    refine ⟨?_, ?_, ?_, ?_⟩
    · rw [List.length_append]
      omega
    · intro hsz
      exfalso
      omega
    · intro s hs
      rw [List.mem_append] at hs
      rcases hs with hs | hs
      · obtain ⟨hr, hlt⟩ := hmemP1 s hs
        refine ⟨fun _ => hlt, fun habs => ?_⟩
        rw [hr] at habs
        simp at habs
      · obtain ⟨hr, -, -⟩ := hmemP2 s hs
        refine ⟨fun habs => ?_, fun _ => hP2le hcond s hs⟩
        rw [hr] at habs
        simp at habs
    · rw [List.map_append, List.nodup_append]
      exact ⟨hnodupP1, hnodupP2, hdisj⟩
  · rw [selectSamplesFromAccount, if_neg hcond]
    refine ⟨hp1n, ?_, ?_, hnodupP1⟩
    · intro hsz
      rw [phase1, Int.toNat_of_nonpos hsz]
      rfl
    · intro s hs
      obtain ⟨hr, hlt⟩ := hmemP1 s hs
      refine ⟨fun _ => hlt, fun habs => ?_⟩
      rw [hr] at habs
      simp at habs

/-- A concrete material account group for the C1 witness (§8 scenario of
the spec). -/
def c1Group : AccountGroup :=
  { accountName := "CITY PARK MAINT", accountNumber := "",
    transactions :=
      [{ id := "a", date := "", accountNumber := "", accountName := "CITY PARK MAINT",
         description := "", amount := 20000 },
       { id := "b", date := "", accountNumber := "", accountName := "CITY PARK MAINT",
         description := "", amount := 12000 },
       { id := "c", date := "", accountNumber := "", accountName := "CITY PARK MAINT",
         description := "", amount := 5000 }],
    totalBalance := 37000, transactionCount := 3 }

/-- The §8 scenario configuration. -/
def c1Config : SamplingConfig :=
  { tolerableMisstatement := 15000, testingScope := 11000,
    targetKeywords := ["PARK"], sampleSize := 2 }

/-- Witness for C1 at the spec's scenario input. -/
theorem selectSamplesFromAccount_spec_witness :
    (c1Group.transactions.map (fun t => t.id)).Nodup ∧
    (selectSamplesFromAccount c1Group c1Config).length ≤ c1Config.sampleSize.toNat :=
  ⟨by decide, (selectSamplesFromAccount_spec c1Group c1Config (by decide)).1⟩

/-! ### Claim C4: determinism of the orchestrator -/

/-- When every transaction already has a non-empty id, the backfill step is
the identity, whatever the id source. -/
theorem withIdsGo_of_ids (gen : Nat → String) :
    ∀ (i : Nat) (ts : List Transaction), (∀ t ∈ ts, t.id ≠ "") →
      withIdsGo gen i ts = ts := by
  intro i ts
  induction ts generalizing i with
  | nil => intro _; rfl
  | cons t ts ih =>
    intro hall
    rw [withIdsGo, if_neg (hall t (List.mem_cons_self t ts)),
      ih (i + 1) (fun x hx => hall x (List.mem_cons_of_mem _ hx))]

/-- C4.  On transaction lists whose every entry carries a non-empty id,
`performSampling` does not depend on the id source at all: two runs with
identical arguments (and arbitrary, possibly different, nondeterministic id
generators) return identical `SamplingResults`. -/
theorem performSampling_deterministic (gen1 gen2 : Nat → String)
    (ts : List Transaction) (c : SamplingConfig)
    (h : ∀ t ∈ ts, t.id ≠ "") :
    performSampling gen1 ts c = performSampling gen2 ts c := by
  simp only [performSampling, withIdsGo_of_ids gen1 0 ts h,
    withIdsGo_of_ids gen2 0 ts h]

/-- A transaction list with ids present, for the C4 witness. -/
def c4Txns : List Transaction :=
  [{ id := "x1", date := "", accountNumber := "", accountName := "PARKS",
     description := "", amount := 20000 },
   { id := "x2", date := "", accountNumber := "", accountName := "PARKS",
     description := "", amount := -3000 }]

/-- Witness for C4: two different id sources give the same results on a
concrete id-carrying input. -/
theorem performSampling_deterministic_witness :
    (∀ t ∈ c4Txns, t.id ≠ "") ∧
    performSampling (fun _ => "p") c4Txns
        { tolerableMisstatement := 15000, testingScope := 11000,
          targetKeywords := [], sampleSize := 3 } =
      performSampling (fun _ => "q") c4Txns
        { tolerableMisstatement := 15000, testingScope := 11000,
          targetKeywords := [], sampleSize := 3 } :=
  ⟨by decide,
   performSampling_deterministic (fun _ => "p") (fun _ => "q") c4Txns
     { tolerableMisstatement := 15000, testingScope := 11000,
       targetKeywords := [], sampleSize := 3 } (by decide)⟩

/-! ### Claim C8: hierarchical amount parsing -/

/-- A row accepted by `hglRowTxn` never carries amount zero. -/
theorem hglRowTxn_amount_ne_zero (numStr dateFmt : Rat → String)
    (gen : Nat → String) (cols : HGLCols) (row : Row) (i : Nat) (cur : String)
    (k : Nat) (t : Transaction)
    (hsome : hglRowTxn numStr dateFmt gen cols row i cur k = some t) :
    t.amount ≠ 0 := by
  simp only [hglRowTxn] at hsome
  split at hsome
  · simp at hsome
  · split at hsome
    · simp at hsome
    · split at hsome
      · simp at hsome
      · rename_i hne
        rw [Option.some.injEq] at hsome
        subst hsome
        simpa using hne

/-- Every transaction emitted by the hierarchical data-row loop has a
non-zero amount. -/
theorem hglGo_amount_ne_zero (numStr dateFmt : Rat → String) (gen : Nat → String)
    (cols : HGLCols) :
    ∀ (rows : List Row) (i : Nat) (cur : String) (k : Nat),
      ∀ t ∈ hglGo numStr dateFmt gen cols rows i cur k, t.amount ≠ 0 := by
  intro rows
  induction rows with
  | nil =>
    intro i cur k t ht
    simp [hglGo] at ht
  | cons row rest ih =>
    intro i cur k t ht
    rw [hglGo] at ht
    cases hfc : firstCell row with
    | str s =>
      rw [hfc] at ht
      simp only [] at ht
      by_cases hb : trimStr s == ""
      · rw [if_pos hb] at ht
        cases hrt : hglRowTxn numStr dateFmt gen cols row i cur k with
        | none =>
          rw [hrt] at ht
          exact ih _ _ _ t ht
        | some t2 =>
          rw [hrt] at ht
          rcases List.mem_cons.mp ht with rfl | hmem
          · exact hglRowTxn_amount_ne_zero numStr dateFmt gen cols row i cur k t hrt
          · exact ih _ _ _ t hmem
      · rw [if_neg hb] at ht
        exact ih _ _ _ t ht
    | num q =>
      rw [hfc] at ht
      simp only [] at ht
      cases hrt : hglRowTxn numStr dateFmt gen cols row i cur k with
      | none =>
        rw [hrt] at ht
        exact ih _ _ _ t ht
      | some t2 =>
        rw [hrt] at ht
        rcases List.mem_cons.mp ht with rfl | hmem
        · exact hglRowTxn_amount_ne_zero numStr dateFmt gen cols row i cur k t hrt
        · exact ih _ _ _ t hmem
    | null =>
      rw [hfc] at ht
      simp only [] at ht
      cases hrt : hglRowTxn numStr dateFmt gen cols row i cur k with
      | none =>
        rw [hrt] at ht
        exact ih _ _ _ t ht
      | some t2 =>
        rw [hrt] at ht
        rcases List.mem_cons.mp ht with rfl | hmem
        · exact hglRowTxn_amount_ne_zero numStr dateFmt gen cols row i cur k t hrt
        · exact ih _ _ _ t hmem

/-- C8.  Hierarchical amount parsing: numeric cells pass through unchanged;
`"$1,234.50"` parses to `1234.50` and `"(500)"` to `-500`; a string whose
cleaned form fails to parse coerces to `0`; and every transaction emitted
by `parseHierarchicalGL` has a non-zero amount (rows whose parsed amount is
`0` are dropped). -/
theorem parseHierarchicalGL_amounts :
    (∀ q : Rat, cellAmount (Cell.num q) = q) ∧
    cellAmount (Cell.str "$1,234.50") = 1234.5 ∧
    cellAmount (Cell.str "(500)") = -500 ∧
    (∀ s : String, jsParseFloat (cleanAmount s) = none → cellAmount (Cell.str s) = 0) ∧
    (∀ (numStr dateFmt : Rat → String) (gen : Nat → String) (rawData : List Row),
      ∀ t ∈ parseHierarchicalGL numStr dateFmt gen rawData, t.amount ≠ 0) := by
  refine ⟨fun q => rfl, ?_, by decide, ?_, ?_⟩
  · have h1 : cellAmount (Cell.str "$1,234.50") = mkRat 123450 100 := by decide
    rw [h1, Rat.mkRat_eq_div]
    norm_num
  · intro s hs
    show (jsParseFloat (cleanAmount s)).getD 0 = 0
    rw [hs]
    rfl
  · intro numStr dateFmt gen rawData t ht
    rw [parseHierarchicalGL] at ht
    cases hfh : findHeaderRow numStr rawData with
    | none =>
      rw [parseHierarchicalGLAux, hfh] at ht
      simp at ht
    | some hr =>
      rw [parseHierarchicalGLAux, hfh] at ht
      simp only [] at ht
      exact hglGo_amount_ne_zero numStr dateFmt gen (mkHGLCols hr.2) _ _ _ _ t ht

/-- Witness for C8: `"abc"` fails to parse and coerces to amount `0`. -/
theorem parseHierarchicalGL_amounts_witness :
    jsParseFloat (cleanAmount "abc") = none ∧ cellAmount (Cell.str "abc") = 0 :=
  ⟨by decide, parseHierarchicalGL_amounts.2.2.2.1 "abc" (by decide)⟩

/-! ### Claim C6: mapping a dataset twice -/

/-- The own-key list of every record produced by `txnToRecord`. -/
def txnKeys : List String :=
  ["id", "date", "accountNumber", "accountName", "description", "amount",
   "reference", "vendor", "_rowIndex"]

/-- The keys of a transaction record, in creation order. -/
theorem txnToRecord_keys (t : Transaction) :
    (txnToRecord t).map (fun p => p.1) = txnKeys := rfl

/-- The column mapping the second pass resolves on transaction records:
`accountName` falls through to the `description` column (the lower-cased
key "accountname" matches no account-name variant, while "description" is
itself a variant), and `reference`/`vendor` resolve exactly. -/
theorem mkColumnMapping_txnKeys :
    mkColumnMapping txnKeys =
      { date := some "date", accountNumber := some "accountNumber",
        accountName := some "description", amount := some "amount",
        description := some "description", reference := some "reference",
        vendor := some "vendor" } := by
  decide

/-- What one remapping pass does to an already-normalised transaction:
`accountName` is replaced by `description`, and absent `reference`/`vendor`
fields materialise as empty strings. -/
def remapTwice (t : Transaction) : Transaction :=
  { t with accountName := t.description,
           reference := some (t.reference.getD ""),
           vendor := some (t.vendor.getD "") }

/-- `remapTwice` with id and row index regenerated positionally, as the
second mapping pass does. -/
def reIdx (gen : Nat → String) : Nat → List Transaction → List Transaction
  | _, [] => []
  | i, t :: ts =>
    { remapTwice t with id := gen i, _rowIndex := i + 1 } :: reIdx gen (i + 1) ts

/-- One row of the second pass, computed on the record view of an arbitrary
transaction. -/
theorem buildTxn_txnToRecord (gen : Nat → String) (numStr : Rat → String)
    (i : Nat) (t : Transaction) :
    buildTxn gen numStr (mkColumnMapping txnKeys) i (txnToRecord t) =
      { remapTwice t with id := gen i, _rowIndex := i + 1 } := by
  rw [mkColumnMapping_txnKeys]
  cases t with
  | mk id date accountNumber accountName description amount reference vendor rowIdx =>
    rcases reference with _ | r <;> rcases vendor with _ | v <;>
      simp [buildTxn, txnToRecord, lookupCell, jsStr, remapTwice, cellAmount]

/-- The second pass over a mapped transaction list, row by row. -/
theorem buildRows_txnToRecord (gen : Nat → String) (numStr : Rat → String) :
    ∀ (i : Nat) (ts : List Transaction),
      buildRows gen numStr (mkColumnMapping txnKeys) i (ts.map txnToRecord) =
        reIdx gen i ts := by
  intro i ts
  induction ts generalizing i with
  | nil => rfl
  | cons t ts ih =>
    rw [List.map_cons, buildRows, buildTxn_txnToRecord, reIdx, ih]

/-- On first-pass output, positional regeneration of ids and row indexes
reproduces the ids and row indexes already present. -/
theorem reIdx_buildRows (gen : Nat → String) (numStr : Rat → String)
    (m : ColumnMapping) :
    ∀ (i : Nat) (rows : List Record),
      reIdx gen i (buildRows gen numStr m i rows) =
        (buildRows gen numStr m i rows).map remapTwice := by
  intro i rows
  induction rows generalizing i with
  | nil => rfl
  | cons r rows ih =>
    rw [buildRows, reIdx, List.map_cons, ih]
    rfl

/-- `parseRawData` on the record view of a non-empty transaction list. -/
theorem parseRawData_map_txnToRecord (gen : Nat → String) (numStr : Rat → String)
    (t : Transaction) (ts : List Transaction) :
    parseRawData gen numStr ((t :: ts).map txnToRecord) = reIdx gen 0 (t :: ts) := by
  rw [List.map_cons, parseRawData, txnToRecord_keys, ← List.map_cons]
  exact buildRows_txnToRecord gen numStr 0 (t :: ts)

/-- C6 (amended).  Mapping a dataset twice is not the identity: the second
pass equals the first with every transaction's `accountName` replaced by
its `description` and absent `reference`/`vendor` fields materialised as
empty strings (ids and row indexes are regenerated at the same
positions, hence unchanged under a fixed id source). -/
theorem parseRawData_twice (gen : Nat → String) (numStr : Rat → String)
    (data : List Record) :
    parseRawData gen numStr ((parseRawData gen numStr data).map txnToRecord) =
      (parseRawData gen numStr data).map remapTwice := by
  cases data with
  | nil => rfl
  | cons r rs =>
    exact
      (parseRawData_map_txnToRecord gen numStr
            (buildTxn gen numStr (mkColumnMapping (r.map (fun p : String × Cell => p.1))) 0 r)
            (buildRows gen numStr (mkColumnMapping (r.map (fun p : String × Cell => p.1))) 1
              rs)).trans
        (reIdx_buildRows gen numStr (mkColumnMapping (r.map (fun p : String × Cell => p.1))) 0
          (r :: rs))

/-- A one-record dataset whose account name and description differ. -/
def c6Data : List Record :=
  [[("account name", Cell.str "Cash"), ("memo", Cell.str "rent"),
    ("amount", Cell.num 5)]]

/-- Counterexample to C6 as stated: mapping `c6Data` twice is not the same
as mapping it once (the twice-mapped transaction carries
`accountName = "rent"`, the once-mapped one `accountName = "Cash"`). -/
theorem parseRawData_idem_counterexample :
    ¬ (parseRawData (fun _ => "t") (fun _ => "")
          ((parseRawData (fun _ => "t") (fun _ => "") c6Data).map txnToRecord) =
        parseRawData (fun _ => "t") (fun _ => "") c6Data) := by
  decide
